import Mathlib

/-!
Shallow embedding of the chess "rook fleeing a bishop" simulation service
(`backend/server.py`): board model, capture predicates, round resolver and
the in-memory game-session store, together with proofs of the specified
properties.  Python's in-place mutation of the stored `(state, board)` pair
is modelled by explicit state passing: each operation returns its result
together with the updated service.  The two random draws of a round (one
coin toss, two six-sided dice) are passed in as an explicit `Draw` value.
-/

namespace Chess

/-- Mirrors the pydantic `Position` model: chess notation plus the internal
0-7 coordinates. -/
structure Position where
  file : Char
  rank : Int
  x : Int
  y : Int
deriving DecidableEq

/-- A piece is its internal coordinate pair (`Piece.__init__` also stores a
type and a colour, which no claim observes; the board's fields keep the
bishop and the rook apart). -/
structure Piece where
  x : Int
  y : Int
deriving DecidableEq

/-- Source `Piece.get_position`: convert internal coordinates to chess notation,
`file = chr(ord('a') + x)`, `rank = y + 1`. -/
def Piece.get_position (p : Piece) : Position :=
  { file := Char.ofNat ('a'.toNat + p.x.toNat), rank := p.y + 1, x := p.x, y := p.y }

/-- Source `Bishop.can_capture`: diagonal capture, `dx == dy and dx > 0` with
`dx = abs(target_x - self.x)`, `dy = abs(target_y - self.y)`. -/
def Bishop.can_capture (p : Piece) (target_x target_y : Int) : Bool :=
  let dx := (target_x - p.x).natAbs
  let dy := (target_y - p.y).natAbs
  (dx == dy) && (decide (0 < dx))

/-- Source `Rook.can_capture`: orthogonal capture,
`(x == tx and y != ty) or (y == ty and x != tx)`. -/
def Rook.can_capture (p : Piece) (target_x target_y : Int) : Bool :=
  ((p.x == target_x) && !(p.y == target_y)) || ((p.y == target_y) && !(p.x == target_x))

/-- Source `Board.__init__`: size 8, bishop at c3 = (2,2), rook at h1 = (7,0).
`Board.init` is the unique constructor result. -/
structure Board where
  size : Int
  bishop : Piece
  rook : Piece
deriving DecidableEq

def Board.init : Board :=
  { size := 8, bishop := { x := 2, y := 2 }, rook := { x := 7, y := 0 } }

/-- Source `Board.wrap_coordinates`: reduce both coordinates modulo the board size
(Python `%` on a positive modulus agrees with `Int.emod`). -/
def Board.wrap_coordinates (b : Board) (x y : Int) : Int × Int :=
  (x % b.size, y % b.size)

/-- Source `Board.move_rook`: "up" adds `squares` to y, otherwise (i.e. "right")
adds `squares` to x; the result is wrapped and stored into the rook.
Returns the updated board together with the returned new position. -/
def Board.move_rook (b : Board) (direction : String) (squares : Int) :
    Board × (Int × Int) :=
  let nxy := if direction = "up" then (b.rook.x, b.rook.y + squares)
             else (b.rook.x + squares, b.rook.y)
  let w := b.wrap_coordinates nxy.1 nxy.2
  ({ b with rook := { x := w.1, y := w.2 } }, w)

/-- Source `Board.check_capture`: whether the bishop captures the rook's square. -/
def Board.check_capture (b : Board) : Bool :=
  Bishop.can_capture b.bishop b.rook.x b.rook.y

/-- Pydantic `CoinToss` model. -/
structure CoinToss where
  result : String
  direction : String
deriving DecidableEq

/-- Pydantic `DiceRoll` model. -/
structure DiceRoll where
  die1 : Nat
  die2 : Nat
  total : Nat
deriving DecidableEq

/-- Pydantic `GameRound` model. -/
structure GameRound where
  round_number : Nat
  coin_toss : CoinToss
  dice_roll : DiceRoll
  rook_position_before : Position
  rook_position_after : Position
  captured : Bool
deriving DecidableEq

/-- Pydantic `GameState` model (the `created_at` timestamp, observed by no
claim, is omitted). -/
structure GameState where
  game_id : String
  rounds : List GameRound
  current_round : Nat
  game_over : Bool
  winner : Option String
  bishop_position : Position
  rook_position : Position
deriving DecidableEq

/-- The randomness consumed by one `play_round` call:
`random.choice(["heads","tails"])` (`coinHeads = true` for `"heads"`) and
two `random.randint(1, 6)` draws, each die value being `d + 1` for
`d : Fin 6`. -/
structure Draw where
  coinHeads : Bool
  d1 : Fin 6
  d2 : Fin 6
deriving DecidableEq

/-- One value of the session dictionary: `{"state": ..., "board": ...}`. -/
structure GameEntry where
  state : GameState
  board : Board
deriving DecidableEq

/-- Source `GameService`: the in-memory `self.games` dictionary, keyed by the
game identifier. -/
structure GameService where
  games : String → Option GameEntry

/-- The empty service (`self.games = {}` in `GameService.__init__`). -/
def GameService.empty : GameService := ⟨fun _ => none⟩

/-- The `GameState(...)` constructor call as used by `create_game` and
`reset_game`: pydantic defaults give empty rounds, counter 0,
`game_over = False`, `winner = None`; both piece positions are taken from
the given board. -/
def GameState.new (game_id : String) (board : Board) : GameState :=
  { game_id := game_id, rounds := [], current_round := 0, game_over := false,
    winner := none, bishop_position := board.bishop.get_position,
    rook_position := board.rook.get_position }

/-- Source `GameService.create_game`: fresh board, fresh state, stored under the
freshly allocated identifier (the `uuid4` draw is the parameter). -/
def GameService.create_game (svc : GameService) (fresh_id : String) :
    GameState × GameService :=
  let board := Board.init
  let game_state := GameState.new fresh_id board
  (game_state,
   ⟨fun k => if k = fresh_id then some ⟨game_state, board⟩ else svc.games k⟩)

/-- Source `GameService.get_game`: return the stored state, or `None` when the
identifier is absent.  The service is returned unchanged (the Python code
performs no write). -/
def GameService.get_game (svc : GameService) (game_id : String) :
    Option GameState × GameService :=
  match svc.games game_id with
  | some game_data => (some game_data.state, svc)
  | none => (none, svc)

/-- The non-terminal body of `GameService.play_round` (source lines
184-229): increment the counter, record the position before, resolve the
coin toss (`heads → "up"`, otherwise `"right"`), roll the dice, move the
rook, check capture, append the round record, update the rook position and
apply the termination policy.  Python mutates `game_state` and `board` in
place; here the updated pair is returned. -/
def advanceEntry (game_data : GameEntry) (draw : Draw) : GameEntry :=
  let game_state := game_data.state
  let board := game_data.board
  let current_round := game_state.current_round + 1
  let position_before := board.rook.get_position
  let coin_result := if draw.coinHeads then "heads" else "tails"
  let direction := if coin_result = "heads" then "up" else "right"
  let coin_toss : CoinToss := { result := coin_result, direction := direction }
  let die1 := (draw.d1 : Nat) + 1
  let die2 := (draw.d2 : Nat) + 1
  let total := die1 + die2
  let dice_roll : DiceRoll := { die1 := die1, die2 := die2, total := total }
  let board2 := (board.move_rook direction (total : Int)).1
  let position_after := board2.rook.get_position
  let captured := board2.check_capture
  let game_round : GameRound :=
    { round_number := current_round, coin_toss := coin_toss,
      dice_roll := dice_roll, rook_position_before := position_before,
      rook_position_after := position_after, captured := captured }
  { state := { game_state with
      rounds := game_state.rounds ++ [game_round],
      current_round := current_round,
      rook_position := position_after,
      game_over :=
        if captured then true
        else if 15 ≤ current_round then true
        else game_state.game_over,
      winner :=
        if captured then some "Bishop (White)"
        else if 15 ≤ current_round then some "Rook (Black)"
        else game_state.winner },
    board := board2 }

/-- Source `GameService.play_round`: `None` when the identifier is absent; the
unchanged state when the game is already over; otherwise the advanced
entry is stored back and its state returned. -/
def GameService.play_round (svc : GameService) (game_id : String) (draw : Draw) :
    Option GameState × GameService :=
  match svc.games game_id with
  | none => (none, svc)
  | some game_data =>
    if game_data.state.game_over then (some game_data.state, svc)
    else
      let e := advanceEntry game_data draw
      (some e.state, ⟨fun k => if k = game_id then some e else svc.games k⟩)

/-- The `reset_game` route handler: 404 (modelled as `none`) when the
identifier is absent, otherwise the stored pair is replaced by a brand-new
board and a brand-new state reusing the same identifier. -/
def reset_game (svc : GameService) (game_id : String) :
    Option GameState × GameService :=
  match svc.games game_id with
  | none => (none, svc)
  | some _ =>
    let board := Board.init
    let game_state := GameState.new game_id board
    (some game_state,
     ⟨fun k => if k = game_id then some ⟨game_state, board⟩ else svc.games k⟩)

/-- The effect of one `play_round` call on a stored entry: unchanged when
terminal, otherwise advanced by the round body. -/
def stepEntry (e : GameEntry) (draw : Draw) : GameEntry :=
  if e.state.game_over then e else advanceEntry e draw

/-- A stored entry after a sequence of `play_round` calls. -/
def runEntry (e : GameEntry) (ds : List Draw) : GameEntry :=
  ds.foldl stepEntry e

/-- The service after a sequence of `play_round` calls on one session. -/
def GameService.playRounds (svc : GameService) (game_id : String)
    (ds : List Draw) : GameService :=
  ds.foldl (fun s d => (s.play_round game_id d).2) svc

/-- The entry stored by `create_game`. -/
def initEntry (game_id : String) : GameEntry :=
  ⟨GameState.new game_id Board.init, Board.init⟩

/-- Whether the most recently recorded round captured the rook. -/
def lastCaptured (s : GameState) : Bool :=
  (s.rounds.getLast?.map GameRound.captured).getD false

/-- Well-formedness of a recorded round: both dice in 1..6, the total is
their sum, and the rook position is unchanged by the round exactly when the
total is 8 (the board size). -/
def roundOK (r : GameRound) : Prop :=
  1 ≤ r.dice_roll.die1 ∧ r.dice_roll.die1 ≤ 6 ∧
  1 ≤ r.dice_roll.die2 ∧ r.dice_roll.die2 ≤ 6 ∧
  r.dice_roll.total = r.dice_roll.die1 + r.dice_roll.die2 ∧
  ((r.rook_position_after = r.rook_position_before) ↔ r.dice_roll.total = 8)

/-- The board has size 8 and its rook coordinates are wrapped into 0..7. -/
def boardInRange (b : Board) : Prop :=
  b.size = 8 ∧ 0 ≤ b.rook.x ∧ b.rook.x < 8 ∧ 0 ≤ b.rook.y ∧ b.rook.y < 8

/-- Sample draw: heads (move up) with both dice showing 1. -/
def drawU : Draw := { coinHeads := true, d1 := 0, d2 := 0 }

/-- Sample draw: tails (move right) with dice 3 and 2, total 5 — from the
initial square (7,0) this lands the rook on (4,0), diagonal to the
bishop at (2,2). -/
def drawCapture : Draw := { coinHeads := false, d1 := 2, d2 := 1 }

/-- A sample already-terminal entry. -/
def termEntry : GameEntry :=
  ⟨{ GameState.new "g" Board.init with
      game_over := true, winner := some "Bishop (White)" }, Board.init⟩

/-- Sample service holding one already-terminal session under "g". -/
def svcTerminal : GameService :=
  ⟨fun k => if k = "g" then some termEntry else none⟩

/-- Sample service holding one mutated (one round played) session under "g". -/
def svcMutated : GameService :=
  ⟨fun k => if k = "g" then some (runEntry (initEntry "g") [drawU]) else none⟩

/-- Sample service holding one fresh session under "h" (and nothing else). -/
def svcOther : GameService :=
  ⟨fun k => if k = "h" then some (initEntry "h") else none⟩

/-- The round recorded by playing `drawU` on a fresh session. -/
def roundU : GameRound :=
  { round_number := 1,
    coin_toss := { result := "heads", direction := "up" },
    dice_roll := { die1 := 1, die2 := 1, total := 2 },
    rook_position_before := { file := 'h', rank := 1, x := 7, y := 0 },
    rook_position_after := { file := 'h', rank := 3, x := 7, y := 2 },
    captured := false }

/-! ### Basic lemmas about the session store and the round resolver -/

theorem stepEntry_of_over {e : GameEntry} (d : Draw)
    (h : e.state.game_over = true) : stepEntry e d = e := by
  simp [stepEntry, h]

theorem stepEntry_of_not_over {e : GameEntry} (d : Draw)
    (h : e.state.game_over = false) : stepEntry e d = advanceEntry e d := by
  simp [stepEntry, h]

theorem play_round_at {svc : GameService} {game_id : String} {e : GameEntry}
    (d : Draw) (he : svc.games game_id = some e) :
    (svc.play_round game_id d).1 = some (stepEntry e d).state ∧
    ((svc.play_round game_id d).2).games game_id = some (stepEntry e d) := by
  by_cases hov : e.state.game_over = true
  · simp [GameService.play_round, he, hov, stepEntry]
  · simp only [Bool.not_eq_true] at hov
    simp [GameService.play_round, he, hov, stepEntry]

theorem playRounds_nil (svc : GameService) (game_id : String) :
    svc.playRounds game_id [] = svc := rfl

theorem playRounds_cons (svc : GameService) (game_id : String) (d : Draw)
    (ds : List Draw) :
    svc.playRounds game_id (d :: ds) =
      ((svc.play_round game_id d).2).playRounds game_id ds := rfl

theorem runEntry_nil (e : GameEntry) : runEntry e [] = e := rfl

theorem runEntry_cons (e : GameEntry) (d : Draw) (ds : List Draw) :
    runEntry e (d :: ds) = runEntry (stepEntry e d) ds := rfl

theorem runEntry_append (e : GameEntry) (ds : List Draw) (d : Draw) :
    runEntry e (ds ++ [d]) = stepEntry (runEntry e ds) d := by
  simp [runEntry, List.foldl_append]

theorem playRounds_games (game_id : String) (ds : List Draw) :
    ∀ (svc : GameService) (e : GameEntry), svc.games game_id = some e →
      ((svc.playRounds game_id ds)).games game_id = some (runEntry e ds) := by
  induction ds with
  | nil => intro svc e he; simpa [playRounds_nil, runEntry_nil] using he
  | cons d ds ih =>
    intro svc e he
    rw [playRounds_cons, runEntry_cons]
    exact ih _ _ (play_round_at d he).2

theorem create_game_games (svc : GameService) (fresh_id : String) :
    ((svc.create_game fresh_id).2).games fresh_id = some (initEntry fresh_id) := by
  simp [GameService.create_game, initEntry]

theorem create_playRounds_games (svc : GameService) (fresh_id : String)
    (ds : List Draw) :
    (((svc.create_game fresh_id).2).playRounds fresh_id ds).games fresh_id =
      some (runEntry (initEntry fresh_id) ds) :=
  playRounds_games fresh_id ds _ _ (create_game_games svc fresh_id)

theorem get_position_inj {p q : Piece} :
    p.get_position = q.get_position ↔ p = q := by
  cases p with
  | mk px py =>
    cases q with
    | mk qx qy =>
      simp only [Piece.get_position, Position.mk.injEq, Piece.mk.injEq]
      constructor
      · rintro ⟨-, -, hx, hy⟩; exact ⟨hx, hy⟩
      · rintro ⟨hx, hy⟩; subst hx; subst hy; exact ⟨rfl, rfl, rfl, rfl⟩

/-- Full characterization of one non-terminal round: the recorded round,
the updated counter, the updated board and the termination policy. -/
theorem advanceEntry_spec (e : GameEntry) (d : Draw) :
    ∃ r : GameRound,
      (advanceEntry e d).state.rounds = e.state.rounds ++ [r] ∧
      (advanceEntry e d).state.current_round = e.state.current_round + 1 ∧
      (advanceEntry e d).state.game_id = e.state.game_id ∧
      (advanceEntry e d).state.rook_position =
        ((advanceEntry e d).board.rook).get_position ∧
      r.round_number = e.state.current_round + 1 ∧
      r.dice_roll.die1 = (d.d1 : Nat) + 1 ∧
      r.dice_roll.die2 = (d.d2 : Nat) + 1 ∧
      r.dice_roll.total = ((d.d1 : Nat) + 1) + ((d.d2 : Nat) + 1) ∧
      r.rook_position_before = (e.board.rook).get_position ∧
      r.rook_position_after = ((advanceEntry e d).board.rook).get_position ∧
      r.captured = ((advanceEntry e d).board).check_capture ∧
      (advanceEntry e d).board =
        (e.board.move_rook (if d.coinHeads then "up" else "right")
          ((((d.d1 : Nat) + 1) + ((d.d2 : Nat) + 1) : Nat) : Int)).1 ∧
      (advanceEntry e d).state.game_over =
        (if r.captured then true
         else if 15 ≤ e.state.current_round + 1 then true
         else e.state.game_over) ∧
      (advanceEntry e d).state.winner =
        (if r.captured then some "Bishop (White)"
         else if 15 ≤ e.state.current_round + 1 then some "Rook (Black)"
         else e.state.winner) := by
  obtain ⟨ch, d1, d2⟩ := d
  cases ch <;>
    exact ⟨_, rfl, rfl, rfl, rfl, rfl, rfl, rfl, rfl, rfl, rfl, rfl, rfl,
      rfl, rfl⟩

theorem lastCaptured_of_rounds {s : GameState} {l : List GameRound}
    {r : GameRound} (h : s.rounds = l ++ [r]) :
    lastCaptured s = r.captured := by
  simp [lastCaptured, h, List.getLast?_concat]

theorem move_rook_range {b : Board} (dir : String) (sq : Int)
    (hb : boardInRange b) : boardInRange (b.move_rook dir sq).1 := by
  obtain ⟨bsize, bb, x, y⟩ := b
  obtain ⟨hs, hx0, hx8, hy0, hy8⟩ := hb
  simp only at hs hx0 hx8 hy0 hy8
  subst hs
  by_cases hd : dir = "up" <;>
    simp only [boardInRange, Board.move_rook, Board.wrap_coordinates, hd,
      if_true, if_false, reduceIte] <;>
    refine ⟨trivial, ?_, ?_, ?_, ?_⟩ <;> omega

theorem advanceEntry_range {e : GameEntry} (d : Draw)
    (hb : boardInRange e.board) : boardInRange (advanceEntry e d).board := by
  obtain ⟨r, -, -, -, -, -, -, -, -, -, -, -, hbd, -, -⟩ := advanceEntry_spec e d
  rw [hbd]
  exact move_rook_range _ _ hb

/-- On a board whose rook is in range, moving the rook by `2 ≤ t ≤ 12`
squares leaves the rook's chess position fixed exactly when `t = 8`. -/
theorem move_rook_fix_iff {b : Board} (dir : String) (t : Int)
    (hb : boardInRange b) (h2 : 2 ≤ t) (h12 : t ≤ 12) :
    (((b.move_rook dir t).1.rook).get_position = (b.rook).get_position ↔
      t = 8) := by
  rw [get_position_inj]
  obtain ⟨bsize, bb, x, y⟩ := b
  obtain ⟨hs, hx0, hx8, hy0, hy8⟩ := hb
  simp only at hs hx0 hx8 hy0 hy8
  subst hs
  by_cases hd : dir = "up" <;>
    simp only [Board.move_rook, Board.wrap_coordinates, hd, if_true,
      if_false, reduceIte, Piece.mk.injEq] <;>
    omega

/-- Trichotomy of one non-terminal round: the counter increments, and the
round ends by capture, by exhaustion of the 15-round budget, or not at
all. -/
theorem advanceEntry_cases (e : GameEntry) (d : Draw) :
    (advanceEntry e d).state.current_round = e.state.current_round + 1 ∧
    (((advanceEntry e d).state.game_over = true ∧
      (advanceEntry e d).state.winner = some "Bishop (White)" ∧
      lastCaptured (advanceEntry e d).state = true) ∨
     ((advanceEntry e d).state.game_over = true ∧
      (advanceEntry e d).state.winner = some "Rook (Black)" ∧
      lastCaptured (advanceEntry e d).state = false ∧
      15 ≤ (advanceEntry e d).state.current_round) ∨
     ((advanceEntry e d).state.game_over = e.state.game_over ∧
      (advanceEntry e d).state.winner = e.state.winner ∧
      (advanceEntry e d).state.current_round < 15)) := by
  obtain ⟨r, hrounds, hcr, -, -, -, -, -, -, -, -, hcap, -, hgo, hwin⟩ :=
    advanceEntry_spec e d
  have hlast : lastCaptured (advanceEntry e d).state = r.captured :=
    lastCaptured_of_rounds hrounds
  refine ⟨hcr, ?_⟩
  by_cases hc : r.captured = true
  · exact Or.inl ⟨by simp [hgo, hc], by simp [hwin, hc], by simp [hlast, hc]⟩
  · have hc' : r.captured = false := by simpa using hc
    by_cases h15 : 15 ≤ e.state.current_round + 1
    · refine Or.inr (Or.inl ⟨by simp [hgo, hc', h15], by simp [hwin, hc', h15],
        by simp [hlast, hc'], ?_⟩)
      rw [hcr]; exact h15
    · refine Or.inr (Or.inr ⟨by simp [hgo, hc', h15], by simp [hwin, hc', h15],
        ?_⟩)
      rw [hcr]; omega

/-- Reachability invariant: after any draw sequence from a fresh session,
either the game is over, or the counter equals the number of draws and is
still below 15; and whenever the game is over the winner field matches the
termination cause. -/
theorem runEntry_inv (id : String) (ds : List Draw) :
    ((runEntry (initEntry id) ds).state.game_over = true ∨
      ((runEntry (initEntry id) ds).state.current_round = ds.length ∧
        ds.length < 15)) ∧
    ((runEntry (initEntry id) ds).state.game_over = true →
      (((runEntry (initEntry id) ds).state.winner = some "Bishop (White)") ↔
        lastCaptured (runEntry (initEntry id) ds).state = true) ∧
      (((runEntry (initEntry id) ds).state.winner = some "Rook (Black)") ↔
        (lastCaptured (runEntry (initEntry id) ds).state = false ∧
          15 ≤ (runEntry (initEntry id) ds).state.current_round))) := by
  induction ds using List.reverseRecOn with
  | nil =>
    refine ⟨Or.inr ⟨rfl, by simp⟩, fun h => ?_⟩
    simp [runEntry_nil, initEntry, GameState.new] at h
  | append_singleton l d ih =>
    rw [runEntry_append]
    by_cases hov : (runEntry (initEntry id) l).state.game_over = true
    · rw [stepEntry_of_over d hov]
      exact ⟨Or.inl hov, fun _ => ih.2 hov⟩
    · have hov' : (runEntry (initEntry id) l).state.game_over = false := by
        simpa using hov
      rw [stepEntry_of_not_over d hov']
      have hprev : (runEntry (initEntry id) l).state.current_round = l.length ∧
          l.length < 15 := by
        rcases ih.1 with h | h
        · exact absurd h hov
        · exact h
      obtain ⟨hcr, htri⟩ := advanceEntry_cases (runEntry (initEntry id) l) d
      rcases htri with ⟨h1, h2, h3⟩ | ⟨h1, h2, h3, h4⟩ | ⟨h1, h2, h3⟩
      · refine ⟨Or.inl h1, fun _ => ⟨?_, ?_⟩⟩
        · simp [h2, h3]
        · rw [h2]
          simp only [h3]
          constructor
          · intro h; exact absurd h (by decide)
          · rintro ⟨h, -⟩; exact absurd h (by decide)
      · refine ⟨Or.inl h1, fun _ => ⟨?_, ?_⟩⟩
        · rw [h2]
          simp only [h3]
          constructor
          · intro h; exact absurd h (by decide)
          · intro h; exact absurd h.symm (by decide)
        · simp [h2, h3, h4]
      · refine ⟨Or.inr ⟨?_, ?_⟩, fun hgo => ?_⟩
        · rw [hcr, hprev.1]; simp
        · have := h3
          rw [hcr, hprev.1] at this
          simpa using this
        · rw [h1, hov'] at hgo
          exact absurd hgo (by simp)

/-- Round bookkeeping: as long as no prefix of the draws has finished the
game, the recorded round numbers are exactly 1..k and the counter is k. -/
theorem runEntry_counter_rounds (id : String) (ds : List Draw)
    (hpre : ∀ i, i < ds.length →
      (runEntry (initEntry id) (ds.take i)).state.game_over = false) :
    (runEntry (initEntry id) ds).state.rounds.map GameRound.round_number =
      List.range' 1 ds.length ∧
    (runEntry (initEntry id) ds).state.current_round = ds.length := by
  induction ds using List.reverseRecOn with
  | nil => exact ⟨rfl, rfl⟩
  | append_singleton l d ih =>
    have hl : ∀ i, i < l.length →
        (runEntry (initEntry id) (l.take i)).state.game_over = false := by
      intro i hi
      have h := hpre i (by simp; omega)
      rwa [List.take_append_of_le_length (by omega)] at h
    have hlast : (runEntry (initEntry id) l).state.game_over = false := by
      have h := hpre l.length (by simp)
      rwa [List.take_left] at h
    obtain ⟨hmap, hcr⟩ := ih hl
    rw [runEntry_append, stepEntry_of_not_over d hlast]
    obtain ⟨r, hrounds, hcr', -, -, hrn, -, -, -, -, -, -, -, -, -⟩ :=
      advanceEntry_spec (runEntry (initEntry id) l) d
    constructor
    · simp only [hrounds, List.map_append, hmap, List.map_cons, List.map_nil,
        hrn, hcr, List.length_append, List.length_cons, List.length_nil]
      rw [List.range'_concat]
      congr 1
      simp
      omega
    · rw [hcr', hcr]
      simp

theorem boardInRange_init : boardInRange Board.init := by
  refine ⟨rfl, ?_, ?_, ?_, ?_⟩ <;> decide

/-- Reachability invariant for C9: the board stays in range and every
recorded round is well-formed. -/
theorem runEntry_roundOK (id : String) (ds : List Draw) :
    boardInRange (runEntry (initEntry id) ds).board ∧
    ∀ r ∈ (runEntry (initEntry id) ds).state.rounds, roundOK r := by
  induction ds using List.reverseRecOn with
  | nil =>
    refine ⟨boardInRange_init, ?_⟩
    intro r hr
    simp [runEntry_nil, initEntry, GameState.new] at hr
  | append_singleton l d ih =>
    rw [runEntry_append]
    by_cases hov : (runEntry (initEntry id) l).state.game_over = true
    · rw [stepEntry_of_over d hov]; exact ih
    · have hov' : (runEntry (initEntry id) l).state.game_over = false := by
        simpa using hov
      rw [stepEntry_of_not_over d hov']
      obtain ⟨hb, hrOK⟩ := ih
      obtain ⟨r, hrounds, -, -, -, -, hd1, hd2, htot, hbef, haft, -, hbd, -, -⟩ :=
        advanceEntry_spec (runEntry (initEntry id) l) d
      refine ⟨advanceEntry_range d hb, ?_⟩
      intro r' hr'
      rw [hrounds] at hr'
      rcases List.mem_append.mp hr' with h | h
      · exact hrOK r' h
      · have hrr : r' = r := by simpa using h
        subst hrr
        have hlt1 := (d.d1).is_lt
        have hlt2 := (d.d2).is_lt
        refine ⟨by rw [hd1]; omega, by rw [hd1]; omega,
                by rw [hd2]; omega, by rw [hd2]; omega,
                by rw [htot, hd1, hd2], ?_⟩
        rw [haft, hbef, hbd]
        have h2 : (2 : Int) ≤ ((((d.d1 : Nat) + 1) + ((d.d2 : Nat) + 1) : Nat) : Int) := by
          push_cast; omega
        have h12 : ((((d.d1 : Nat) + 1) + ((d.d2 : Nat) + 1) : Nat) : Int) ≤ 12 := by
          push_cast; omega
        rw [move_rook_fix_iff (if d.coinHeads then "up" else "right") _ hb h2 h12,
          htot]
        omega


/-! ### Claim theorems -/

/-- Claim C1: for every session created by `create_game` and every sequence
of random draws, the session reaches `game_over = true` within at most 15
`play_round` calls; the winner is the capturing side (bishop) exactly when
the final round's capture check is true, and the fleeing side (rook)
exactly when 15 rounds elapsed without capture; the two causes are never
both claimed. -/
theorem C1_termination_and_winner (svc : GameService) (fresh_id : String)
    (ds : List Draw) (h : 15 ≤ ds.length) :
    (((svc.create_game fresh_id).2).playRounds fresh_id ds).games fresh_id =
      some (runEntry (initEntry fresh_id) ds) ∧
    (runEntry (initEntry fresh_id) ds).state.game_over = true ∧
    (((runEntry (initEntry fresh_id) ds).state.winner = some "Bishop (White)") ↔
      lastCaptured (runEntry (initEntry fresh_id) ds).state = true) ∧
    (((runEntry (initEntry fresh_id) ds).state.winner = some "Rook (Black)") ↔
      (lastCaptured (runEntry (initEntry fresh_id) ds).state = false ∧
        15 ≤ (runEntry (initEntry fresh_id) ds).state.current_round)) ∧
    ¬((runEntry (initEntry fresh_id) ds).state.winner = some "Bishop (White)" ∧
      (runEntry (initEntry fresh_id) ds).state.winner = some "Rook (Black)") := by
  obtain ⟨h1, h2⟩ := runEntry_inv fresh_id ds
  have hgo : (runEntry (initEntry fresh_id) ds).state.game_over = true := by
    rcases h1 with hh | ⟨-, hh⟩
    · exact hh
    · omega
  obtain ⟨hB, hR⟩ := h2 hgo
  refine ⟨create_playRounds_games svc fresh_id ds, hgo, hB, hR, ?_⟩
  rintro ⟨hb, hr⟩
  rw [hb] at hr
  exact absurd hr (by decide)

theorem C1_termination_and_winner_witness :
    15 ≤ (List.replicate 15 drawU).length ∧
    ((((GameService.empty.create_game "g").2).playRounds "g"
        (List.replicate 15 drawU)).games "g" =
      some (runEntry (initEntry "g") (List.replicate 15 drawU)) ∧
    (runEntry (initEntry "g") (List.replicate 15 drawU)).state.game_over = true ∧
    (((runEntry (initEntry "g") (List.replicate 15 drawU)).state.winner =
        some "Bishop (White)") ↔
      lastCaptured (runEntry (initEntry "g") (List.replicate 15 drawU)).state
        = true) ∧
    (((runEntry (initEntry "g") (List.replicate 15 drawU)).state.winner =
        some "Rook (Black)") ↔
      (lastCaptured (runEntry (initEntry "g") (List.replicate 15 drawU)).state
          = false ∧
        15 ≤ (runEntry (initEntry "g")
            (List.replicate 15 drawU)).state.current_round)) ∧
    ¬((runEntry (initEntry "g") (List.replicate 15 drawU)).state.winner =
        some "Bishop (White)" ∧
      (runEntry (initEntry "g") (List.replicate 15 drawU)).state.winner =
        some "Rook (Black)")) :=
  ⟨by decide, C1_termination_and_winner GameService.empty "g" _ (by decide)⟩

/-- Claim C2: the bishop's capture predicate holds iff the coordinate
differences have equal nonzero absolute value; the rook's holds iff
exactly one coordinate matches; both are false on coincident squares. -/
theorem C2_capture_predicates (x y tx ty : Int) :
    (Bishop.can_capture ⟨x, y⟩ tx ty = true ↔
      ((tx - x).natAbs = (ty - y).natAbs ∧ 0 < (tx - x).natAbs)) ∧
    (Rook.can_capture ⟨x, y⟩ tx ty = true ↔ Xor' (x = tx) (y = ty)) ∧
    Bishop.can_capture ⟨x, y⟩ x y = false ∧
    Rook.can_capture ⟨x, y⟩ x y = false := by
  refine ⟨?_, ?_, ?_, ?_⟩
  · simp [Bishop.can_capture]
  · simp only [Rook.can_capture, Xor', Bool.or_eq_true, Bool.and_eq_true,
      beq_iff_eq, Bool.not_eq_true', beq_eq_false_iff_ne]
  · simp [Bishop.can_capture]
  · simp [Rook.can_capture]

theorem C2_capture_predicates_witness :
    (Bishop.can_capture ⟨2, 2⟩ 4 4 = true ↔
      ((4 - 2 : Int).natAbs = (4 - 2 : Int).natAbs ∧ 0 < (4 - 2 : Int).natAbs)) ∧
    (Rook.can_capture ⟨2, 2⟩ 4 4 = true ↔ Xor' ((2 : Int) = 4) ((2 : Int) = 4)) ∧
    Bishop.can_capture ⟨2, 2⟩ 2 2 = false ∧
    Rook.can_capture ⟨2, 2⟩ 2 2 = false :=
  C2_capture_predicates 2 2 4 4

/-- Claim C3: `play_round` on an already-terminal stored session returns
the identical state and leaves the service, including the stored entry,
unchanged. -/
theorem C3_terminal_noop (svc : GameService) (game_id : String)
    (e : GameEntry) (d : Draw) (he : svc.games game_id = some e)
    (hov : e.state.game_over = true) :
    (svc.play_round game_id d).1 = some e.state ∧
    (svc.play_round game_id d).2 = svc ∧
    ((svc.play_round game_id d).2).games game_id = some e := by
  simp [GameService.play_round, he, hov]

theorem C3_terminal_noop_witness :
    svcTerminal.games "g" = some termEntry ∧
    termEntry.state.game_over = true ∧
    ((svcTerminal.play_round "g" drawU).1 = some termEntry.state ∧
     (svcTerminal.play_round "g" drawU).2 = svcTerminal ∧
     ((svcTerminal.play_round "g" drawU).2).games "g" = some termEntry) :=
  ⟨by decide, by decide,
   C3_terminal_noop svcTerminal "g" termEntry drawU (by decide) (by decide)⟩


/-- Claim C4: after k `play_round` calls on a session that was never
terminal before any of them, the round history has length exactly k, the
round counter equals k, and the i-th recorded round (1-based) has
`round_number = i`. -/
theorem C4_round_bookkeeping (svc : GameService) (fresh_id : String)
    (ds : List Draw)
    (hpre : ∀ i, i < ds.length →
      (runEntry (initEntry fresh_id) (ds.take i)).state.game_over = false) :
    (((svc.create_game fresh_id).2).playRounds fresh_id ds).games fresh_id =
      some (runEntry (initEntry fresh_id) ds) ∧
    (runEntry (initEntry fresh_id) ds).state.rounds.length = ds.length ∧
    (runEntry (initEntry fresh_id) ds).state.current_round = ds.length ∧
    ∀ i, ∀ hi : i < (runEntry (initEntry fresh_id) ds).state.rounds.length,
      ((runEntry (initEntry fresh_id) ds).state.rounds.get ⟨i, hi⟩).round_number
        = i + 1 := by
  obtain ⟨hmap, hcr⟩ := runEntry_counter_rounds fresh_id ds hpre
  have hlen : (runEntry (initEntry fresh_id) ds).state.rounds.length
      = ds.length := by
    have h := congrArg List.length hmap
    simpa using h
  refine ⟨create_playRounds_games svc fresh_id ds, hlen, hcr, ?_⟩
  intro i hi
  have h4 := List.get_of_eq hmap ⟨i, by simpa using hi⟩
  rw [List.get_map] at h4
  have h5 : ((runEntry (initEntry fresh_id) ds).state.rounds.get
      ⟨i, hi⟩).round_number = 1 + i := by
    simpa [List.get_eq_getElem, List.getElem_range'] using h4
  omega

theorem C4_round_bookkeeping_witness :
    (∀ i, i < ([drawU] : List Draw).length →
      (runEntry (initEntry "g") (([drawU] : List Draw).take i)).state.game_over
        = false) ∧
    ((((GameService.empty.create_game "g").2).playRounds "g" [drawU]).games "g"
        = some (runEntry (initEntry "g") [drawU]) ∧
     (runEntry (initEntry "g") [drawU]).state.rounds.length
        = ([drawU] : List Draw).length ∧
     (runEntry (initEntry "g") [drawU]).state.current_round
        = ([drawU] : List Draw).length ∧
     ∀ i, ∀ hi : i < (runEntry (initEntry "g") [drawU]).state.rounds.length,
       ((runEntry (initEntry "g") [drawU]).state.rounds.get
         ⟨i, hi⟩).round_number = i + 1) :=
  ⟨by decide, C4_round_bookkeeping GameService.empty "g" [drawU] (by decide)⟩

/-- Claim C5: for a rook at in-range coordinates and any non-negative
magnitude, wrapping after adding the magnitude to one axis yields the
modulo-8 result on that axis with the other axis unchanged, staying in
0..7; `move_rook` "up" adds to y, "right" adds to x, stores the wrapped
coordinates into the rook and returns them. -/
theorem C5_wrap_and_move (b : Board) (m : Int) (hsize : b.size = 8)
    (hx0 : 0 ≤ b.rook.x) (hx7 : b.rook.x ≤ 7)
    (hy0 : 0 ≤ b.rook.y) (hy7 : b.rook.y ≤ 7) (hm : 0 ≤ m) :
    b.wrap_coordinates (b.rook.x + m) b.rook.y
      = ((b.rook.x + m) % 8, b.rook.y) ∧
    (0 ≤ (b.rook.x + m) % 8 ∧ (b.rook.x + m) % 8 ≤ 7) ∧
    b.wrap_coordinates b.rook.x (b.rook.y + m)
      = (b.rook.x, (b.rook.y + m) % 8) ∧
    (0 ≤ (b.rook.y + m) % 8 ∧ (b.rook.y + m) % 8 ≤ 7) ∧
    (b.move_rook "up" m).1.rook = ⟨b.rook.x, (b.rook.y + m) % 8⟩ ∧
    (b.move_rook "up" m).2 = (b.rook.x, (b.rook.y + m) % 8) ∧
    (b.move_rook "right" m).1.rook = ⟨(b.rook.x + m) % 8, b.rook.y⟩ ∧
    (b.move_rook "right" m).2 = ((b.rook.x + m) % 8, b.rook.y) := by
  have hyw : b.rook.y % 8 = b.rook.y := by omega
  have hxw : b.rook.x % 8 = b.rook.x := by omega
  refine ⟨?_, ⟨by omega, by omega⟩, ?_, ⟨by omega, by omega⟩, ?_, ?_, ?_, ?_⟩ <;>
    simp [Board.move_rook, Board.wrap_coordinates, hsize, hxw, hyw,
      Piece.mk.injEq, Prod.ext_iff]

theorem C5_wrap_and_move_witness :
    Board.init.size = 8 ∧ 0 ≤ Board.init.rook.x ∧ Board.init.rook.x ≤ 7 ∧
    0 ≤ Board.init.rook.y ∧ Board.init.rook.y ≤ 7 ∧ 0 ≤ (9 : Int) ∧
    (Board.init.wrap_coordinates (Board.init.rook.x + 9) Board.init.rook.y
      = ((Board.init.rook.x + 9) % 8, Board.init.rook.y) ∧
    (0 ≤ (Board.init.rook.x + 9) % 8 ∧ (Board.init.rook.x + 9) % 8 ≤ 7) ∧
    Board.init.wrap_coordinates Board.init.rook.x (Board.init.rook.y + 9)
      = (Board.init.rook.x, (Board.init.rook.y + 9) % 8) ∧
    (0 ≤ (Board.init.rook.y + 9) % 8 ∧ (Board.init.rook.y + 9) % 8 ≤ 7) ∧
    (Board.init.move_rook "up" 9).1.rook
      = ⟨Board.init.rook.x, (Board.init.rook.y + 9) % 8⟩ ∧
    (Board.init.move_rook "up" 9).2
      = (Board.init.rook.x, (Board.init.rook.y + 9) % 8) ∧
    (Board.init.move_rook "right" 9).1.rook
      = ⟨(Board.init.rook.x + 9) % 8, Board.init.rook.y⟩ ∧
    (Board.init.move_rook "right" 9).2
      = ((Board.init.rook.x + 9) % 8, Board.init.rook.y)) :=
  ⟨rfl, by decide, by decide, by decide, by decide, by decide,
   C5_wrap_and_move Board.init 9 rfl (by decide) (by decide) (by decide)
     (by decide) (by decide)⟩

/-- Claim C6: every state returned by `create_game` has the bishop at
c3 = (2,2), the rook at h1 = (7,0), empty round history, counter 0, not
over, no winner, and is stored in the session map under the fresh
identifier, paired with the fresh board. -/
theorem C6_create_initial (svc : GameService) (fresh_id : String) :
    ((svc.create_game fresh_id).1).bishop_position
      = { file := 'c', rank := 3, x := 2, y := 2 } ∧
    ((svc.create_game fresh_id).1).rook_position
      = { file := 'h', rank := 1, x := 7, y := 0 } ∧
    ((svc.create_game fresh_id).1).rounds = [] ∧
    ((svc.create_game fresh_id).1).current_round = 0 ∧
    ((svc.create_game fresh_id).1).game_over = false ∧
    ((svc.create_game fresh_id).1).winner = none ∧
    ((svc.create_game fresh_id).1).game_id = fresh_id ∧
    ((svc.create_game fresh_id).2).games fresh_id
      = some ⟨(svc.create_game fresh_id).1, Board.init⟩ := by
  refine ⟨rfl, rfl, rfl, rfl, rfl, rfl, rfl, ?_⟩
  simp [GameService.create_game]

/-- Claim C7: `reset` on a stored session (in any state) returns a state
with the same identifier, empty history, counter 0, not over, no winner,
both pieces back at the canonical squares, and replaces the stored pair
with this fresh state and a fresh board. -/
theorem C7_reset (svc : GameService) (game_id : String) (e : GameEntry)
    (he : svc.games game_id = some e) :
    (reset_game svc game_id).1 = some (GameState.new game_id Board.init) ∧
    (GameState.new game_id Board.init).game_id = game_id ∧
    (GameState.new game_id Board.init).rounds = [] ∧
    (GameState.new game_id Board.init).current_round = 0 ∧
    (GameState.new game_id Board.init).game_over = false ∧
    (GameState.new game_id Board.init).winner = none ∧
    (GameState.new game_id Board.init).bishop_position
      = { file := 'c', rank := 3, x := 2, y := 2 } ∧
    (GameState.new game_id Board.init).rook_position
      = { file := 'h', rank := 1, x := 7, y := 0 } ∧
    ((reset_game svc game_id).2).games game_id
      = some ⟨GameState.new game_id Board.init, Board.init⟩ := by
  refine ⟨?_, rfl, rfl, rfl, rfl, rfl, rfl, rfl, ?_⟩ <;>
    simp [reset_game, he]

theorem C7_reset_witness :
    svcMutated.games "g" = some (runEntry (initEntry "g") [drawU]) ∧
    ((reset_game svcMutated "g").1 = some (GameState.new "g" Board.init) ∧
     (GameState.new "g" Board.init).game_id = "g" ∧
     (GameState.new "g" Board.init).rounds = [] ∧
     (GameState.new "g" Board.init).current_round = 0 ∧
     (GameState.new "g" Board.init).game_over = false ∧
     (GameState.new "g" Board.init).winner = none ∧
     (GameState.new "g" Board.init).bishop_position
       = { file := 'c', rank := 3, x := 2, y := 2 } ∧
     (GameState.new "g" Board.init).rook_position
       = { file := 'h', rank := 1, x := 7, y := 0 } ∧
     ((reset_game svcMutated "g").2).games "g"
       = some ⟨GameState.new "g" Board.init, Board.init⟩) :=
  ⟨by decide,
   C7_reset svcMutated "g" (runEntry (initEntry "g") [drawU]) (by decide)⟩


/-- Claim C8: with an absent identifier, `get_game`, `play_round` and
`reset_game` all signal not-found (`none`) and leave the service map
unchanged; with a present identifier none of them signals not-found. -/
theorem C8_unknown_id (svc : GameService) (game_id : String) (d : Draw)
    (habs : svc.games game_id = none) :
    (svc.get_game game_id).1 = none ∧
    (svc.get_game game_id).2 = svc ∧
    (svc.play_round game_id d).1 = none ∧
    (svc.play_round game_id d).2 = svc ∧
    (reset_game svc game_id).1 = none ∧
    (reset_game svc game_id).2 = svc ∧
    ∀ id2 e2, svc.games id2 = some e2 →
      (svc.get_game id2).1 ≠ none ∧
      (svc.play_round id2 d).1 ≠ none ∧
      (reset_game svc id2).1 ≠ none := by
  refine ⟨by simp [GameService.get_game, habs],
    by simp [GameService.get_game, habs],
    by simp [GameService.play_round, habs],
    by simp [GameService.play_round, habs],
    by simp [reset_game, habs], by simp [reset_game, habs], ?_⟩
  intro id2 e2 he2
  refine ⟨by simp [GameService.get_game, he2], ?_,
    by simp [reset_game, he2]⟩
  by_cases hov : e2.state.game_over = true
  · simp [GameService.play_round, he2, hov]
  · simp only [Bool.not_eq_true] at hov
    simp [GameService.play_round, he2, hov]

theorem C8_unknown_id_witness :
    svcOther.games "g" = none ∧
    ((svcOther.get_game "g").1 = none ∧
     (svcOther.get_game "g").2 = svcOther ∧
     (svcOther.play_round "g" drawU).1 = none ∧
     (svcOther.play_round "g" drawU).2 = svcOther ∧
     (reset_game svcOther "g").1 = none ∧
     (reset_game svcOther "g").2 = svcOther ∧
     ∀ id2 e2, svcOther.games id2 = some e2 →
       (svcOther.get_game id2).1 ≠ none ∧
       (svcOther.play_round id2 drawU).1 ≠ none ∧
       (reset_game svcOther id2).1 ≠ none) :=
  ⟨by decide, C8_unknown_id svcOther "g" drawU (by decide)⟩

/-- Claim C9: in every session state reachable by `create_game` followed by
`play_round` calls, every recorded round has both dice in 1..6, total equal
to their sum, and `rook_position_after = rook_position_before` exactly when
the total is 8. -/
theorem C9_round_invariant (svc : GameService) (fresh_id : String)
    (ds : List Draw) (r : GameRound)
    (hr : r ∈ (runEntry (initEntry fresh_id) ds).state.rounds) :
    (((svc.create_game fresh_id).2).playRounds fresh_id ds).games fresh_id =
      some (runEntry (initEntry fresh_id) ds) ∧
    1 ≤ r.dice_roll.die1 ∧ r.dice_roll.die1 ≤ 6 ∧
    1 ≤ r.dice_roll.die2 ∧ r.dice_roll.die2 ≤ 6 ∧
    r.dice_roll.total = r.dice_roll.die1 + r.dice_roll.die2 ∧
    ((r.rook_position_after = r.rook_position_before) ↔
      r.dice_roll.total = 8) := by
  obtain ⟨-, hOK⟩ := runEntry_roundOK fresh_id ds
  obtain ⟨a1, a2, a3, a4, a5, a6⟩ := hOK r hr
  exact ⟨create_playRounds_games svc fresh_id ds, a1, a2, a3, a4, a5, a6⟩

theorem C9_round_invariant_witness :
    roundU ∈ (runEntry (initEntry "g") [drawU]).state.rounds ∧
    ((((GameService.empty.create_game "g").2).playRounds "g" [drawU]).games "g"
        = some (runEntry (initEntry "g") [drawU]) ∧
     1 ≤ roundU.dice_roll.die1 ∧ roundU.dice_roll.die1 ≤ 6 ∧
     1 ≤ roundU.dice_roll.die2 ∧ roundU.dice_roll.die2 ≤ 6 ∧
     roundU.dice_roll.total = roundU.dice_roll.die1 + roundU.dice_roll.die2 ∧
     ((roundU.rook_position_after = roundU.rook_position_before) ↔
       roundU.dice_roll.total = 8)) :=
  ⟨by decide, C9_round_invariant GameService.empty "g" [drawU] roundU (by decide)⟩

/-- Claim C10: `get_game` is read-only — it returns the service unchanged
for every identifier, and its result is exactly the stored state (mapped
out of the entry), `none` when the identifier is absent. -/
theorem C10_get_readonly (svc : GameService) (game_id : String) :
    (svc.get_game game_id).2 = svc ∧
    (svc.get_game game_id).1 = Option.map GameEntry.state (svc.games game_id) := by
  cases h : svc.games game_id <;> simp [GameService.get_game, h]

end Chess
